import Mathlib

/-!
Shallow embedding of the task repository of `yarox/todomvc`
(`src/models.rs` and `src/repository.rs`).

Modelling conventions:
* `Uuid` is modelled as `Nat`; `Uuid::new_v4()` produces a fresh id, so
  operations that generate an id take it as an explicit parameter and
  freshness (`id` not already a key) is a hypothesis where needed.
* `SystemTime` is modelled as `Nat` (an abstract tick); `SystemTime::now()`
  is likewise an explicit parameter.
* `HashMap<Uuid, Todo>` is modelled as an association list
  `List (Uuid × Todo)` whose keys are pairwise distinct (the `HashMap`
  guarantee); `values()` enumerates the entries in list order.
* The three `u32` counters are modelled as `Nat` together with explicit
  wrapping arithmetic modulo `2 ^ 32` (`u32add`, `u32sub`), matching the
  release-mode semantics of `+=` and `-=` on `u32`.
* Fallible operations return `Except TodoRepoError`; in Rust an early
  `return Err(..)` leaves `self` untouched, so the driver `applyOp` keeps
  the old state on `.error`.
-/

abbrev Uuid := Nat

abbrev Time := Nat

/-- `u32` modulus. -/
def U32MOD : Nat := 2 ^ 32

/-- Wrapping `u32` addition (`a + b` on `u32` in release mode). -/
def u32add (a b : Nat) : Nat := (a + b) % U32MOD

/-- Wrapping `u32` subtraction (`a - b` on `u32` in release mode). -/
def u32sub (a b : Nat) : Nat := (a + (U32MOD - b % U32MOD)) % U32MOD

/-- `models.rs`: the `Todo` entity. -/
structure Todo where
  is_completed : Bool
  created_at : Time
  text : String
  id : Uuid
deriving Repr, DecidableEq

/-- `models.rs`: `Todo::new(text)`; the fresh id and the current time are
explicit parameters (see module docstring). -/
def Todo.new (text : String) (id : Uuid) (now : Time) : Todo :=
  { is_completed := false, created_at := now, text := text, id := id }

/-- `models.rs`: `TodoListFilter`. -/
inductive TodoListFilter where
  | Completed
  | Active
  | All
deriving Repr, DecidableEq

/-- `models.rs`: `TodoToggleAction`. -/
inductive TodoToggleAction where
  | Uncheck
  | Check
deriving Repr, DecidableEq

/-- `repository.rs`: `TodoRepoError`. -/
inductive TodoRepoError where
  | NotFound
deriving Repr, DecidableEq

/-- `repository.rs`: the `TodoRepo` struct. -/
structure TodoRepo where
  num_completed_items : Nat
  num_active_items : Nat
  num_all_items : Nat
  items : List (Uuid × Todo)
deriving Repr, DecidableEq

/-- `TodoRepo::default()`: zero counters, empty map. -/
def TodoRepo.default : TodoRepo :=
  { num_completed_items := 0, num_active_items := 0, num_all_items := 0, items := [] }

/-- `HashMap::get` on the association-list model. -/
def assocLookup (k : Uuid) : List (Uuid × Todo) → Option Todo
  | [] => none
  | (k', v) :: rest => if k = k' then some v else assocLookup k rest

/-- `HashMap::insert` on the association-list model: replace the entry for an
existing key, otherwise append a new entry. -/
def assocInsert (k : Uuid) (v : Todo) : List (Uuid × Todo) → List (Uuid × Todo)
  | [] => [(k, v)]
  | (k', v') :: rest => if k = k' then (k, v) :: rest else (k', v') :: assocInsert k v rest

/-- `HashMap::remove` on the association-list model. -/
def assocRemove (k : Uuid) (l : List (Uuid × Todo)) : List (Uuid × Todo) :=
  l.filter (fun p => p.1 ≠ k)

/-- In-place mutation through `HashMap::get_mut`: overwrite the todo stored
under key `k`. -/
def assocUpdate (k : Uuid) (v : Todo) (l : List (Uuid × Todo)) : List (Uuid × Todo) :=
  l.map (fun p => if p.1 = k then (k, v) else p)

/-- The filter predicate of `TodoRepo::list`. -/
def matchesFilter (f : TodoListFilter) (t : Todo) : Bool :=
  match f with
  | .Completed => t.is_completed
  | .Active => !t.is_completed
  | .All => true

/-- The comparator of `TodoRepo::list`: `b.created_at.cmp(&a.created_at)`,
i.e. sort by `created_at` descending. -/
def createdDesc (a b : Todo) : Prop := b.created_at ≤ a.created_at

instance : DecidableRel createdDesc := fun a b => Nat.decLe b.created_at a.created_at

instance : IsTotal Todo createdDesc := ⟨fun a b => Nat.le_total b.created_at a.created_at⟩

instance : IsTrans Todo createdDesc := ⟨fun _ _ _ h h' => Nat.le_trans h' h⟩

/-- `repository.rs`: `TodoRepo::get`. -/
def TodoRepo.get (r : TodoRepo) (id : Uuid) : Except TodoRepoError Todo :=
  match assocLookup id r.items with
  | some t => .ok t
  | none => .error .NotFound

/-- `repository.rs`: `TodoRepo::list`. -/
def TodoRepo.list (r : TodoRepo) (f : TodoListFilter) : List Todo :=
  List.insertionSort createdDesc ((r.items.map Prod.snd).filter (matchesFilter f))

/-- `repository.rs`: `TodoRepo::create`; the fresh id and current time are
explicit parameters (see module docstring). -/
def TodoRepo.create (r : TodoRepo) (text : String) (id : Uuid) (now : Time) :
    Todo × TodoRepo :=
  let todo := Todo.new text id now
  (todo,
    { r with
      items := assocInsert todo.id todo r.items
      num_active_items := u32add r.num_active_items 1
      num_all_items := u32add r.num_all_items 1 })

/-- `repository.rs`: `TodoRepo::delete`. -/
def TodoRepo.delete (r : TodoRepo) (id : Uuid) : Except TodoRepoError TodoRepo :=
  match assocLookup id r.items with
  | none => .error .NotFound
  | some item =>
    .ok
      { r with
        items := assocRemove id r.items
        num_completed_items :=
          if item.is_completed then u32sub r.num_completed_items 1
          else r.num_completed_items
        num_active_items :=
          if item.is_completed then r.num_active_items
          else u32sub r.num_active_items 1
        num_all_items := u32sub r.num_all_items 1 }

/-- `repository.rs`: `TodoRepo::update`.  The counter adjustment depends only
on the target value of `is_completed`, and the text is overwritten after the
flag; the returned todo is the final stored one. -/
def TodoRepo.update (r : TodoRepo) (id : Uuid) (text : Option String)
    (is_completed : Option Bool) : Except TodoRepoError (Todo × TodoRepo) :=
  match assocLookup id r.items with
  | none => .error .NotFound
  | some todo0 =>
    let todo1 :=
      match is_completed with
      | some b => { todo0 with is_completed := b }
      | none => todo0
    let nc :=
      match is_completed with
      | some b =>
        if b then u32add r.num_completed_items 1 else u32sub r.num_completed_items 1
      | none => r.num_completed_items
    let na :=
      match is_completed with
      | some b =>
        if b then u32sub r.num_active_items 1 else u32add r.num_active_items 1
      | none => r.num_active_items
    let todo2 :=
      match text with
      | some s => { todo1 with text := s }
      | none => todo1
    .ok (todo2,
      { r with
        items := assocUpdate id todo2 r.items
        num_completed_items := nc
        num_active_items := na })

/-- `repository.rs`: `TodoRepo::delete_completed`. -/
def TodoRepo.delete_completed (r : TodoRepo) : TodoRepo :=
  { r with
    items := r.items.filter (fun p => !p.2.is_completed)
    num_all_items := u32sub r.num_all_items r.num_completed_items
    num_completed_items := 0 }

/-- `repository.rs`: `TodoRepo::toggle_completed`. -/
def TodoRepo.toggle_completed (r : TodoRepo) (action : TodoToggleAction) : TodoRepo :=
  match action with
  | .Uncheck =>
    { r with
      num_completed_items := 0
      num_active_items := r.num_all_items
      items := r.items.map (fun p => (p.1, { p.2 with is_completed := false })) }
  | .Check =>
    { r with
      num_completed_items := r.num_all_items
      num_active_items := 0
      items := r.items.map (fun p => (p.1, { p.2 with is_completed := true })) }

/-- One public call of the repository with its environment-supplied inputs
(fresh ids, timestamps) made explicit. -/
inductive TodoOp where
  | get (id : Uuid)
  | list (f : TodoListFilter)
  | create (text : String) (id : Uuid) (now : Time)
  | update (id : Uuid) (text : Option String) (is_completed : Option Bool)
  | delete (id : Uuid)
  | delete_completed
  | toggle_completed (action : TodoToggleAction)
deriving Repr, DecidableEq

/-- Apply one public call to the repository state; a call returning
`NotFound` leaves the state unchanged (the Rust method early-returns). -/
def applyOp (r : TodoRepo) : TodoOp → TodoRepo
  | .get _ => r
  | .list _ => r
  | .create text id now => (r.create text id now).2
  | .update id text b =>
    match r.update id text b with
    | .ok (_, r') => r'
    | .error _ => r
  | .delete id =>
    match r.delete id with
    | .ok r' => r'
    | .error _ => r
  | .delete_completed => r.delete_completed
  | .toggle_completed a => r.toggle_completed a

/-- Run a sequence of public calls from a starting state. -/
def run (r : TodoRepo) (ops : List TodoOp) : TodoRepo := ops.foldl applyOp r

/-- Number of stored tasks with `is_completed == true`. -/
def ccount (l : List (Uuid × Todo)) : Nat :=
  (l.filter (fun p => p.2.is_completed)).length

/-- Number of stored tasks with `is_completed == false`. -/
def acount (l : List (Uuid × Todo)) : Nat :=
  (l.filter (fun p => !p.2.is_completed)).length

/-- Keys of the stored map. -/
def keysOf (l : List (Uuid × Todo)) : List Uuid := l.map Prod.fst

/-- The counter-consistency invariant of the spec (§3), together with the
`HashMap` key-uniqueness guarantee. -/
def RepoInv (r : TodoRepo) : Prop :=
  r.num_all_items = r.items.length ∧
  r.num_active_items = acount r.items ∧
  r.num_completed_items = ccount r.items ∧
  (keysOf r.items).Nodup

/-- Environment discipline for one call: `create` receives a genuinely fresh
id (the `Uuid::new_v4` assumption), and an `update` that sets the completion
flag targets a task whose flag differs from the target value (the
non-redundant-update restriction forced by the §9 open question). -/
def opOk (r : TodoRepo) : TodoOp → Bool
  | .create _ id _ => (assocLookup id r.items).isNone
  | .update id _ (some b) =>
    match assocLookup id r.items with
    | some t => t.is_completed != b
    | none => true
  | _ => true

/-- `opOk` holding at every step of a run. -/
def runOk (r : TodoRepo) : List TodoOp → Bool
  | [] => true
  | op :: ops => opOk r op && runOk (applyOp r op) ops

/-! ### Arithmetic helper lemmas -/

theorem U32MOD_pos : 0 < U32MOD := by decide

theorem u32add_eq {a b : Nat} (h : a + b < U32MOD) : u32add a b = a + b := by
  simpa [u32add] using Nat.mod_eq_of_lt h

theorem u32sub_eq {a b : Nat} (hb : b ≤ a) (ha : a < U32MOD) : u32sub a b = a - b := by
  have hbm : b % U32MOD = b := Nat.mod_eq_of_lt (lt_of_le_of_lt hb ha)
  have h1 : a + (U32MOD - b) = (a - b) + U32MOD := by omega
  have h2 : (a - b) < U32MOD := lt_of_le_of_lt (Nat.sub_le a b) ha
  simp only [u32sub, hbm, h1, Nat.add_mod_right]
  exact Nat.mod_eq_of_lt h2

/-! ### Association-list helper lemmas -/

theorem assocLookup_eq_none {k : Uuid} {l : List (Uuid × Todo)} :
    assocLookup k l = none ↔ k ∉ keysOf l := by
  induction l with
  | nil => simp [assocLookup, keysOf]
  | cons p rest ih =>
    obtain ⟨k', v⟩ := p
    by_cases h : k = k' <;> simp [assocLookup, keysOf, h] <;> simpa [keysOf] using ih

theorem assocLookup_isSome {k : Uuid} {l : List (Uuid × Todo)} :
    (assocLookup k l).isSome ↔ k ∈ keysOf l := by
  rcases h : assocLookup k l with _ | t
  · simpa [h] using assocLookup_eq_none.mp h
  · simp only [Option.isSome_some, true_iff]
    by_contra hk
    rw [assocLookup_eq_none.mpr hk] at h
    exact Option.noConfusion h

theorem assocInsert_of_fresh {k : Uuid} {v : Todo} {l : List (Uuid × Todo)}
    (h : assocLookup k l = none) : assocInsert k v l = l ++ [(k, v)] := by
  induction l with
  | nil => simp [assocInsert]
  | cons p rest ih =>
    obtain ⟨k', w⟩ := p
    by_cases hk : k = k'
    · simp [assocLookup, hk] at h
    · simp [assocLookup, hk] at h
      simp [assocInsert, hk, ih h]

theorem assocUpdate_of_notMem {k : Uuid} {v : Todo} {l : List (Uuid × Todo)}
    (h : k ∉ keysOf l) : assocUpdate k v l = l := by
  induction l with
  | nil => rfl
  | cons p rest ih =>
    simp only [keysOf, List.map_cons, List.mem_cons, not_or] at h
    simp only [assocUpdate, List.map_cons]
    rw [if_neg (fun hp => h.1 hp.symm)]
    simpa [assocUpdate, keysOf] using ih h.2

theorem keysOf_assocUpdate {k : Uuid} {v : Todo} {l : List (Uuid × Todo)} :
    keysOf (assocUpdate k v l) = keysOf l := by
  induction l with
  | nil => rfl
  | cons p rest ih =>
    by_cases h : p.1 = k
    · simp only [assocUpdate, keysOf, List.map_cons] at *
      rw [if_pos h]
      simpa [h] using ih
    · simp only [assocUpdate, keysOf, List.map_cons] at *
      rw [if_neg h]
      simpa using ih

theorem assocLookup_assocUpdate_self {k : Uuid} {v t : Todo} {l : List (Uuid × Todo)}
    (h : assocLookup k l = some t) :
    assocLookup k (assocUpdate k v l) = some v := by
  induction l with
  | nil => simp [assocLookup] at h
  | cons p rest ih =>
    obtain ⟨k', w⟩ := p
    by_cases hk : k = k'
    · subst hk
      simp only [assocUpdate, List.map_cons]
      simp [assocLookup]
    · simp only [assocLookup, if_neg hk] at h
      simp only [assocUpdate, List.map_cons]
      rw [if_neg (fun hp => hk hp.symm)]
      simpa [assocLookup, hk, assocUpdate] using ih h

theorem assocLookup_assocUpdate_ne {k k' : Uuid} {v : Todo} {l : List (Uuid × Todo)}
    (h : k' ≠ k) : assocLookup k' (assocUpdate k v l) = assocLookup k' l := by
  induction l with
  | nil => rfl
  | cons p rest ih =>
    obtain ⟨k1, w⟩ := p
    by_cases hk : k1 = k
    · simp only [assocUpdate, List.map_cons, if_pos hk]
      simp only [assocLookup, if_neg h, if_neg (hk ▸ h)]
      simpa [assocUpdate] using ih
    · simp only [assocUpdate, List.map_cons, if_neg hk]
      simp only [assocLookup]
      by_cases hk1 : k' = k1
      · simp [hk1]
      · simpa [assocLookup, hk1, assocUpdate] using ih

theorem assocRemove_of_notMem {k : Uuid} {l : List (Uuid × Todo)}
    (h : k ∉ keysOf l) : assocRemove k l = l := by
  refine List.filter_eq_self.mpr (fun p hp => ?_)
  have : p.1 ∈ keysOf l := List.mem_map_of_mem Prod.fst hp
  simp only [ne_eq, decide_eq_true_eq]
  exact fun he => h (he ▸ this)

theorem assocLookup_assocRemove_self {k : Uuid} {l : List (Uuid × Todo)} :
    assocLookup k (assocRemove k l) = none := by
  rw [assocLookup_eq_none]
  intro hmem
  simp only [keysOf, List.mem_map] at hmem
  obtain ⟨p, hp, hfst⟩ := hmem
  have := List.of_mem_filter hp
  simp only [ne_eq, decide_eq_true_eq] at this
  exact this hfst

theorem assocLookup_assocRemove_ne {k k' : Uuid} {l : List (Uuid × Todo)}
    (h : k' ≠ k) : assocLookup k' (assocRemove k l) = assocLookup k' l := by
  induction l with
  | nil => rfl
  | cons p rest ih =>
    obtain ⟨k1, w⟩ := p
    by_cases hk : k1 = k
    · subst hk
      have h1 : assocRemove k1 ((k1, w) :: rest) = assocRemove k1 rest := by
        simp [assocRemove]
      rw [h1, ih]
      simp [assocLookup, h]
    · have h1 : assocRemove k ((k1, w) :: rest) = (k1, w) :: assocRemove k rest := by
        simp [assocRemove, hk]
      rw [h1]
      by_cases hk1 : k' = k1
      · simp [assocLookup, hk1]
      · simp only [assocLookup, if_neg hk1]
        exact ih

/-! ### Counting lemmas -/

theorem keysOf_append {l1 l2 : List (Uuid × Todo)} :
    keysOf (l1 ++ l2) = keysOf l1 ++ keysOf l2 := by
  simp [keysOf]

theorem ccount_append {l1 l2 : List (Uuid × Todo)} :
    ccount (l1 ++ l2) = ccount l1 + ccount l2 := by
  simp [ccount, List.filter_append]

theorem acount_append {l1 l2 : List (Uuid × Todo)} :
    acount (l1 ++ l2) = acount l1 + acount l2 := by
  simp [acount, List.filter_append]

theorem ccount_cons {p : Uuid × Todo} {l : List (Uuid × Todo)} :
    ccount (p :: l) = (if p.2.is_completed then 1 else 0) + ccount l := by
  rcases hb : p.2.is_completed <;> simp [ccount, List.filter_cons, hb] <;> omega

theorem acount_cons {p : Uuid × Todo} {l : List (Uuid × Todo)} :
    acount (p :: l) = (if p.2.is_completed then 0 else 1) + acount l := by
  rcases hb : p.2.is_completed <;> simp [acount, List.filter_cons, hb] <;> omega

theorem acount_add_ccount (l : List (Uuid × Todo)) : acount l + ccount l = l.length := by
  induction l with
  | nil => rfl
  | cons p rest ih =>
    rw [acount_cons, ccount_cons, List.length_cons]
    rcases hb : p.2.is_completed <;> simp [hb] <;> omega

theorem ccount_le_length (l : List (Uuid × Todo)) : ccount l ≤ l.length :=
  List.length_filter_le _ l

theorem acount_le_length (l : List (Uuid × Todo)) : acount l ≤ l.length :=
  List.length_filter_le _ l

theorem assocLookup_split {k : Uuid} {t : Todo} {l : List (Uuid × Todo)}
    (h : assocLookup k l = some t) :
    ∃ l1 l2, l = l1 ++ (k, t) :: l2 ∧ k ∉ keysOf l1 := by
  induction l with
  | nil => simp [assocLookup] at h
  | cons p rest ih =>
    obtain ⟨k1, w⟩ := p
    by_cases hk : k = k1
    · subst hk
      simp only [assocLookup, if_pos rfl] at h
      obtain rfl : w = t := by injection h
      exact ⟨[], rest, rfl, by simp [keysOf]⟩
    · simp only [assocLookup, if_neg hk] at h
      obtain ⟨l1, l2, rfl, hk1⟩ := ih h
      refine ⟨(k1, w) :: l1, l2, rfl, ?_⟩
      simp only [keysOf, List.map_cons, List.mem_cons, not_or]
      exact ⟨hk, fun hm => hk1 hm⟩

theorem nodup_split_notMem {k : Uuid} {t : Todo} {l1 l2 : List (Uuid × Todo)}
    (hnd : (keysOf (l1 ++ (k, t) :: l2)).Nodup) : k ∉ keysOf l1 ∧ k ∉ keysOf l2 := by
  rw [keysOf_append] at hnd
  rw [List.nodup_append] at hnd
  obtain ⟨_, hnd2, hdisj⟩ := hnd
  constructor
  · intro hmem
    exact hdisj hmem (by simp [keysOf])
  · intro hmem
    simp only [keysOf, List.map_cons, List.nodup_cons] at hnd2
    exact hnd2.1 hmem

theorem assocUpdate_decomp {k : Uuid} {v t : Todo} {l1 l2 : List (Uuid × Todo)}
    (h1 : k ∉ keysOf l1) (h2 : k ∉ keysOf l2) :
    assocUpdate k v (l1 ++ (k, t) :: l2) = l1 ++ (k, v) :: l2 := by
  have e1 : assocUpdate k v l1 = l1 := assocUpdate_of_notMem h1
  have e2 : assocUpdate k v l2 = l2 := assocUpdate_of_notMem h2
  simp only [assocUpdate, List.map_append, List.map_cons] at e1 e2 ⊢
  rw [e1, e2]
  simp

theorem assocRemove_decomp {k : Uuid} {t : Todo} {l1 l2 : List (Uuid × Todo)}
    (h1 : k ∉ keysOf l1) (h2 : k ∉ keysOf l2) :
    assocRemove k (l1 ++ (k, t) :: l2) = l1 ++ l2 := by
  have e1 : assocRemove k l1 = l1 := assocRemove_of_notMem h1
  have e2 : assocRemove k l2 = l2 := assocRemove_of_notMem h2
  simp only [assocRemove, List.filter_append, List.filter_cons] at e1 e2 ⊢
  rw [e1, e2]
  simp

theorem ccount_filterNot (l : List (Uuid × Todo)) :
    ccount (l.filter fun p => !p.2.is_completed) = 0 := by
  simp only [ccount, List.filter_filter]
  simp

theorem acount_filterNot (l : List (Uuid × Todo)) :
    acount (l.filter fun p => !p.2.is_completed) = acount l := by
  simp only [acount, List.filter_filter]
  simp

theorem length_filterNot (l : List (Uuid × Todo)) :
    (l.filter fun p => !p.2.is_completed).length = acount l := rfl

theorem nodup_keysOf_filter {p : Uuid × Todo → Bool} {l : List (Uuid × Todo)}
    (hnd : (keysOf l).Nodup) : (keysOf (l.filter p)).Nodup :=
  List.Nodup.sublist (List.Sublist.map Prod.fst (List.filter_sublist l)) hnd

theorem keysOf_setFlag (b : Bool) (l : List (Uuid × Todo)) :
    keysOf (l.map fun p => (p.1, { p.2 with is_completed := b })) = keysOf l := by
  simp [keysOf]

theorem ccount_setTrue (l : List (Uuid × Todo)) :
    ccount (l.map fun p => (p.1, { p.2 with is_completed := true })) = l.length := by
  simp [ccount, List.filter_map, Function.comp]

theorem acount_setTrue (l : List (Uuid × Todo)) :
    acount (l.map fun p => (p.1, { p.2 with is_completed := true })) = 0 := by
  simp [acount, List.filter_map, Function.comp]

theorem ccount_setFalse (l : List (Uuid × Todo)) :
    ccount (l.map fun p => (p.1, { p.2 with is_completed := false })) = 0 := by
  simp [ccount, List.filter_map, Function.comp]

theorem acount_setFalse (l : List (Uuid × Todo)) :
    acount (l.map fun p => (p.1, { p.2 with is_completed := false })) = l.length := by
  simp [acount, List.filter_map, Function.comp]

/-! ### Shape of a successful update, and counting after each mutation -/

theorem update_eq_ok {r : TodoRepo} {id : Uuid} {text : Option String} {b : Option Bool}
    {todo0 : Todo} (hl : assocLookup id r.items = some todo0) :
    ∃ todo2,
      r.update id text b = .ok (todo2,
        { r with
          items := assocUpdate id todo2 r.items
          num_completed_items :=
            match b with
            | some bv =>
              if bv then u32add r.num_completed_items 1 else u32sub r.num_completed_items 1
            | none => r.num_completed_items
          num_active_items :=
            match b with
            | some bv =>
              if bv then u32sub r.num_active_items 1 else u32add r.num_active_items 1
            | none => r.num_active_items }) ∧
      todo2.is_completed = (match b with | some bv => bv | none => todo0.is_completed) ∧
      todo2.text = (match text with | some s => s | none => todo0.text) ∧
      todo2.created_at = todo0.created_at ∧ todo2.id = todo0.id := by
  cases text with
  | none =>
    cases b with
    | none => exact ⟨todo0, by simp [TodoRepo.update, hl], rfl, rfl, rfl, rfl⟩
    | some bv =>
      exact ⟨{ todo0 with is_completed := bv }, by simp [TodoRepo.update, hl],
        rfl, rfl, rfl, rfl⟩
  | some s =>
    cases b with
    | none => exact ⟨{ todo0 with text := s }, by simp [TodoRepo.update, hl],
        rfl, rfl, rfl, rfl⟩
    | some bv =>
      exact ⟨{ todo0 with is_completed := bv, text := s }, by simp [TodoRepo.update, hl],
        rfl, rfl, rfl, rfl⟩

theorem counts_after_update {id : Uuid} {todo0 v : Todo} {l : List (Uuid × Todo)}
    (hnd : (keysOf l).Nodup) (hl : assocLookup id l = some todo0) :
    (assocUpdate id v l).length = l.length ∧
    ccount (assocUpdate id v l) + (if todo0.is_completed then 1 else 0)
      = ccount l + (if v.is_completed then 1 else 0) ∧
    acount (assocUpdate id v l) + (if todo0.is_completed then 0 else 1)
      = acount l + (if v.is_completed then 0 else 1) ∧
    (keysOf (assocUpdate id v l)).Nodup := by
  obtain ⟨l1, l2, rfl, h1⟩ := assocLookup_split hl
  obtain ⟨h1', h2⟩ := nodup_split_notMem hnd
  rw [assocUpdate_decomp h1 h2]
  refine ⟨by simp, ?_, ?_, ?_⟩
  · rw [ccount_append, ccount_append, ccount_cons, ccount_cons]
    rcases todo0.is_completed <;> rcases v.is_completed <;> simp <;> omega
  · rw [acount_append, acount_append, acount_cons, acount_cons]
    rcases todo0.is_completed <;> rcases v.is_completed <;> simp <;> omega
  · simpa [keysOf_append, keysOf] using hnd

theorem counts_after_remove {id : Uuid} {todo0 : Todo} {l : List (Uuid × Todo)}
    (hnd : (keysOf l).Nodup) (hl : assocLookup id l = some todo0) :
    (assocRemove id l).length + 1 = l.length ∧
    ccount (assocRemove id l) + (if todo0.is_completed then 1 else 0) = ccount l ∧
    acount (assocRemove id l) + (if todo0.is_completed then 0 else 1) = acount l ∧
    (keysOf (assocRemove id l)).Nodup := by
  obtain ⟨l1, l2, rfl, h1⟩ := assocLookup_split hl
  obtain ⟨h1', h2⟩ := nodup_split_notMem hnd
  rw [assocRemove_decomp h1 h2]
  refine ⟨by simp; omega, ?_, ?_, ?_⟩
  · rw [ccount_append, ccount_append, ccount_cons]
    rcases todo0.is_completed <;> simp <;> omega
  · rw [acount_append, acount_append, acount_cons]
    rcases todo0.is_completed <;> simp <;> omega
  · rw [keysOf_append] at hnd ⊢
    refine List.Nodup.sublist ?_ hnd
    refine List.Sublist.append_left ?_ _
    simp only [keysOf, List.map_cons]
    exact List.sublist_cons_self _ _

/-! ### Invariant preservation -/

theorem applyOp_inv {r : TodoRepo} {op : TodoOp} (hinv : RepoInv r)
    (hlen : r.items.length + 1 < U32MOD) (hok : opOk r op = true) :
    RepoInv (applyOp r op) ∧ (applyOp r op).items.length ≤ r.items.length + 1 := by
  obtain ⟨hall, hact, hcomp, hnd⟩ := hinv
  have hccle := ccount_le_length r.items
  have hacle := acount_le_length r.items
  have hsum := acount_add_ccount r.items
  cases op with
  | get id => exact ⟨⟨hall, hact, hcomp, hnd⟩, by simp [applyOp]⟩
  | list f => exact ⟨⟨hall, hact, hcomp, hnd⟩, by simp [applyOp]⟩
  | create text id now =>
    simp only [opOk, Option.isNone_iff_eq_none] at hok
    have hfresh : id ∉ keysOf r.items := assocLookup_eq_none.mp hok
    have hins : assocInsert id (Todo.new text id now) r.items
        = r.items ++ [(id, Todo.new text id now)] := assocInsert_of_fresh hok
    have hmod : r.num_all_items + 1 < U32MOD := by rw [hall]; exact hlen
    have hmoda : r.num_active_items + 1 < U32MOD := by rw [hact]; omega
    simp only [applyOp, TodoRepo.create, RepoInv]
    refine ⟨⟨?_, ?_, ?_, ?_⟩, ?_⟩
    · show u32add r.num_all_items 1 = (assocInsert id (Todo.new text id now) r.items).length
      rw [u32add_eq hmod, hins, List.length_append, hall]
      rfl
    · show u32add r.num_active_items 1 = acount (assocInsert id (Todo.new text id now) r.items)
      rw [u32add_eq hmoda, hins, acount_append, hact]
      simp [acount, Todo.new, List.filter_cons]
    · show r.num_completed_items = ccount (assocInsert id (Todo.new text id now) r.items)
      rw [hins, ccount_append, hcomp]
      simp [ccount, Todo.new, List.filter_cons]
    · show (keysOf (assocInsert id (Todo.new text id now) r.items)).Nodup
      rw [hins, keysOf_append, List.nodup_append]
      refine ⟨hnd, by simp [keysOf], ?_⟩
      intro a ha hmem
      simp only [keysOf, List.map_cons, List.map_nil, List.mem_singleton] at hmem
      exact hfresh (hmem ▸ ha)
    · show (assocInsert id (Todo.new text id now) r.items).length ≤ r.items.length + 1
      rw [hins]
      simp
  | update id text b =>
    rcases hl : assocLookup id r.items with _ | todo0
    · have herr : r.update id text b = .error .NotFound := by simp [TodoRepo.update, hl]
      simp only [applyOp, herr]
      exact ⟨⟨hall, hact, hcomp, hnd⟩, by omega⟩
    · obtain ⟨todo2, heq, hflag, -, -, -⟩ := @update_eq_ok r id text b todo0 hl
      obtain ⟨hle, hcc, hac, hnd'⟩ := counts_after_update (v := todo2) hnd hl
      cases b with
      | none =>
        simp only [applyOp, heq]
        rw [hflag] at hcc hac
        refine ⟨⟨?_, ?_, ?_, hnd'⟩, by omega⟩
        · show r.num_all_items = (assocUpdate id todo2 r.items).length
          omega
        · show r.num_active_items = acount (assocUpdate id todo2 r.items)
          rcases todo0.is_completed <;> simp at hac <;> omega
        · show r.num_completed_items = ccount (assocUpdate id todo2 r.items)
          rcases todo0.is_completed <;> simp at hcc <;> omega
      | some bv =>
        simp only [opOk, hl] at hok
        have hprev : todo0.is_completed = !bv := by
          rcases hb0 : todo0.is_completed <;> rcases hbv : bv <;> simp [hb0, hbv] at hok ⊢
        rw [hflag, hprev] at hcc hac
        simp only [applyOp, heq]
        cases bv with
        | true =>
          simp only [Bool.not_true, Bool.false_eq_true, if_false, eq_self_iff_true,
            if_true] at hcc hac
          simp only [RepoInv, eq_self_iff_true, if_true, Bool.false_eq_true, if_false]
          refine ⟨⟨?_, ?_, ?_, hnd'⟩, by omega⟩
          · omega
          · rw [u32sub_eq (by omega) (by omega)]
            omega
          · rw [u32add_eq (by omega)]
            omega
        | false =>
          simp only [Bool.not_false, Bool.false_eq_true, if_false, eq_self_iff_true,
            if_true] at hcc hac
          simp only [RepoInv, eq_self_iff_true, if_true, Bool.false_eq_true, if_false]
          refine ⟨⟨?_, ?_, ?_, hnd'⟩, by omega⟩
          · omega
          · rw [u32add_eq (by omega)]
            omega
          · rw [u32sub_eq (by omega) (by omega)]
            omega
  | delete id =>
    rcases hl : assocLookup id r.items with _ | item
    · have herr : r.delete id = .error .NotFound := by simp [TodoRepo.delete, hl]
      simp only [applyOp, herr]
      exact ⟨⟨hall, hact, hcomp, hnd⟩, by omega⟩
    · obtain ⟨hle, hcc, hac, hnd'⟩ := counts_after_remove hnd hl
      have hdel : r.delete id = .ok
          { r with
            items := assocRemove id r.items
            num_completed_items :=
              if item.is_completed then u32sub r.num_completed_items 1
              else r.num_completed_items
            num_active_items :=
              if item.is_completed then r.num_active_items
              else u32sub r.num_active_items 1
            num_all_items := u32sub r.num_all_items 1 } := by
        simp [TodoRepo.delete, hl]
      simp only [applyOp, hdel]
      rcases hflag : item.is_completed
      · simp only [hflag, Bool.false_eq_true, if_false, eq_self_iff_true, if_true] at hcc hac
        simp only [RepoInv, hflag, Bool.false_eq_true, if_false, eq_self_iff_true, if_true]
        refine ⟨⟨?_, ?_, ?_, hnd'⟩, by omega⟩
        · rw [u32sub_eq (by omega) (by omega)]
          omega
        · rw [u32sub_eq (by omega) (by omega)]
          omega
        · omega
      · simp only [hflag, Bool.false_eq_true, if_false, eq_self_iff_true, if_true] at hcc hac
        simp only [RepoInv, hflag, Bool.false_eq_true, if_false, eq_self_iff_true, if_true]
        refine ⟨⟨?_, ?_, ?_, hnd'⟩, by omega⟩
        · rw [u32sub_eq (by omega) (by omega)]
          omega
        · omega
        · rw [u32sub_eq (by omega) (by omega)]
          omega
  | delete_completed =>
    simp only [applyOp, TodoRepo.delete_completed, RepoInv]
    have hfle := List.length_filter_le (fun p => !p.2.is_completed) r.items
    refine ⟨⟨?_, ?_, ?_, nodup_keysOf_filter hnd⟩, by omega⟩
    · rw [hall, hcomp, u32sub_eq hccle (by omega), length_filterNot]
      omega
    · rw [acount_filterNot]
      exact hact
    · rw [ccount_filterNot]
  | toggle_completed a =>
    cases a with
    | Check =>
      simp only [applyOp, TodoRepo.toggle_completed, RepoInv]
      refine ⟨⟨?_, ?_, ?_, ?_⟩, by simp⟩
      · rw [hall, List.length_map]
      · rw [acount_setTrue]
      · rw [ccount_setTrue, hall]
      · rw [keysOf_setFlag]
        exact hnd
    | Uncheck =>
      simp only [applyOp, TodoRepo.toggle_completed, RepoInv]
      refine ⟨⟨?_, ?_, ?_, ?_⟩, by simp⟩
      · rw [hall, List.length_map]
      · rw [acount_setFalse, hall]
      · rw [ccount_setFalse]
      · rw [keysOf_setFlag]
        exact hnd

theorem run_inv : ∀ (ops : List TodoOp) (r : TodoRepo), RepoInv r →
    r.items.length + ops.length < U32MOD → runOk r ops = true → RepoInv (run r ops)
  | [], _, hinv, _, _ => hinv
  | op :: ops, r, hinv, hlen, hok => by
    simp only [runOk, Bool.and_eq_true] at hok
    have hlen1 : r.items.length + 1 < U32MOD := by
      simp only [List.length_cons] at hlen
      omega
    obtain ⟨hinv1, hle1⟩ := applyOp_inv hinv hlen1 hok.1
    refine run_inv ops (applyOp r op) hinv1 ?_ hok.2
    simp only [List.length_cons] at hlen
    omega

/-! ### Claim theorems -/

/-- C1 (counterexample): the claim as stated is false. Starting from the
default repository, the legal call sequence `create "a"`, then twice
`update(id, is_completed := some true)` on that task, ends in a state where
`num_active_items` is `2^32 - 1` although no stored task is active (and
`num_completed_items` is `2` although only one stored task is completed):
the counters do not equal the corresponding counts. -/
theorem C1_invariant_counterexample :
    (run TodoRepo.default [TodoOp.create "a" 0 0, TodoOp.update 0 none (some true),
        TodoOp.update 0 none (some true)]).num_active_items
      ≠ acount (run TodoRepo.default [TodoOp.create "a" 0 0, TodoOp.update 0 none (some true),
        TodoOp.update 0 none (some true)]).items ∧
    (run TodoRepo.default [TodoOp.create "a" 0 0, TodoOp.update 0 none (some true),
        TodoOp.update 0 none (some true)]).num_completed_items
      ≠ ccount (run TodoRepo.default [TodoOp.create "a" 0 0, TodoOp.update 0 none (some true),
        TodoOp.update 0 none (some true)]).items := by
  constructor
  · decide
  · decide

/-- C1 (amended): starting from the default repository, after any sequence of
fewer than `2^32` public operations in which every `update` that passes
`is_completed = Some(b)` targets a stored task whose current flag differs
from `b` (and every `create` receives a fresh id), the counters satisfy
`num_all_items = items.size`, `num_active_items + num_completed_items =
num_all_items`, and `num_active_items`/`num_completed_items` equal the
number of stored tasks with `is_completed` false/true respectively. -/
theorem C1_counter_invariant (ops : List TodoOp) (hlen : ops.length < U32MOD)
    (hok : runOk TodoRepo.default ops = true) :
    (run TodoRepo.default ops).num_all_items = (run TodoRepo.default ops).items.length ∧
    (run TodoRepo.default ops).num_active_items + (run TodoRepo.default ops).num_completed_items
      = (run TodoRepo.default ops).num_all_items ∧
    (run TodoRepo.default ops).num_active_items = acount (run TodoRepo.default ops).items ∧
    (run TodoRepo.default ops).num_completed_items = ccount (run TodoRepo.default ops).items := by
  have hinv0 : RepoInv TodoRepo.default := ⟨rfl, rfl, rfl, List.nodup_nil⟩
  have hlen0 : TodoRepo.default.items.length + ops.length < U32MOD := by
    simpa [TodoRepo.default] using hlen
  obtain ⟨h1, h2, h3, -⟩ := run_inv ops TodoRepo.default hinv0 hlen0 hok
  refine ⟨h1, ?_, h2, h3⟩
  rw [h1, h2, h3, acount_add_ccount]

/-- Witness for C1 (amended) at the concrete sequence
`[create "a", update with is_completed some true]`. -/
theorem C1_counter_invariant_witness :
    ([TodoOp.create "a" 0 0, TodoOp.update 0 none (some true)].length < U32MOD ∧
      runOk TodoRepo.default [TodoOp.create "a" 0 0, TodoOp.update 0 none (some true)] = true) ∧
    (run TodoRepo.default [TodoOp.create "a" 0 0, TodoOp.update 0 none (some true)]).num_all_items
      = (run TodoRepo.default [TodoOp.create "a" 0 0,
          TodoOp.update 0 none (some true)]).items.length :=
  ⟨⟨by decide, by decide⟩,
    (C1_counter_invariant [TodoOp.create "a" 0 0, TodoOp.update 0 none (some true)]
      (by decide) (by decide)).1⟩

/-- C3: from the empty repository, after `create "a"` and one
`update(id, is_completed := some true)` the counter `num_active_items` is
already `0`; the second identical `update` performs the decrement anyway and
wraps the `u32` counter around to `2^32 - 1`. -/
theorem C3_update_double_decrement_underflow :
    (run TodoRepo.default [TodoOp.create "a" 0 0,
        TodoOp.update 0 none (some true)]).num_active_items = 0 ∧
    (run TodoRepo.default [TodoOp.create "a" 0 0, TodoOp.update 0 none (some true),
        TodoOp.update 0 none (some true)]).num_active_items = U32MOD - 1 := by
  constructor
  · decide
  · decide

theorem assocLookup_append_fresh {k : Uuid} {v : Todo} {l : List (Uuid × Todo)}
    (h : assocLookup k l = none) : assocLookup k (l ++ [(k, v)]) = some v := by
  induction l with
  | nil => simp [assocLookup]
  | cons p rest ih =>
    obtain ⟨k1, w⟩ := p
    by_cases hk : k = k1
    · simp [assocLookup, hk] at h
    · rw [List.cons_append]
      simp only [assocLookup, if_neg hk] at h ⊢
      exact ih h

theorem ccount_eq_zero_iff {l : List (Uuid × Todo)} :
    ccount l = 0 ↔ ∀ p ∈ l, p.2.is_completed = false := by
  simp [ccount, List.length_eq_zero, List.filter_eq_nil_iff]

/-- C2: on any repository state and any id stored in `items`,
`update(id, text, Some(b))` succeeds, sets the stored task's `is_completed`
to `b`, and adjusts the counters purely by the target value `b` —
`num_completed_items` is bumped up and `num_active_items` down for `b = true`
(and conversely for `b = false`) regardless of the task's previous flag —
while `num_all_items` is unchanged. -/
theorem C2_update_target_policy (r : TodoRepo) (id : Uuid) (text : Option String)
    (b : Bool) (todo0 : Todo) (h : assocLookup id r.items = some todo0) :
    ∃ todo2 r2,
      r.update id text (some b) = Except.ok (todo2, r2) ∧
      todo2.is_completed = b ∧
      assocLookup id r2.items = some todo2 ∧
      r2.num_completed_items
        = (if b then u32add r.num_completed_items 1 else u32sub r.num_completed_items 1) ∧
      r2.num_active_items
        = (if b then u32sub r.num_active_items 1 else u32add r.num_active_items 1) ∧
      r2.num_all_items = r.num_all_items := by
  obtain ⟨todo2, heq, hflag, -, -, -⟩ := @update_eq_ok r id text (some b) todo0 h
  refine ⟨todo2, _, heq, by simpa using hflag, ?_, rfl, rfl, rfl⟩
  exact assocLookup_assocUpdate_self (v := todo2) h

/-- Witness for C2: a task that is already completed (`num_completed_items`
is 1, the task's flag is `true`); `update(id, is_completed := some true)`
still bumps `num_completed_items` to 2. -/
theorem C2_update_target_policy_witness :
    ∃ todo2 r2,
      TodoRepo.update ⟨1, 0, 1, [(5, ⟨true, 3, "t", 5⟩)]⟩ 5 none (some true)
        = Except.ok (todo2, r2) ∧
      todo2.is_completed = true ∧ r2.num_completed_items = 2 := by
  obtain ⟨todo2, r2, heq, hflag, -, hc, -, -⟩ :=
    C2_update_target_policy ⟨1, 0, 1, [(5, ⟨true, 3, "t", 5⟩)]⟩ 5 none true
      ⟨true, 3, "t", 5⟩ rfl
  refine ⟨todo2, r2, heq, hflag, ?_⟩
  rw [hc]
  decide

/-- C4: `get`, `update`, and `delete` return `NotFound` exactly when the id
is not a key of `items`; `list`, `create`, `delete_completed`, and
`toggle_completed` are embedded as total functions (no error type), so they
never fail. -/
theorem C4_notfound_iff_absent (r : TodoRepo) (id : Uuid) :
    (r.get id = Except.error TodoRepoError.NotFound ↔ assocLookup id r.items = none) ∧
    (∀ text b, r.update id text b = Except.error TodoRepoError.NotFound
      ↔ assocLookup id r.items = none) ∧
    (r.delete id = Except.error TodoRepoError.NotFound ↔ assocLookup id r.items = none) := by
  rcases hl : assocLookup id r.items with _ | t
  · exact ⟨by simp [TodoRepo.get, hl], fun text b => by simp [TodoRepo.update, hl],
      by simp [TodoRepo.delete, hl]⟩
  · refine ⟨by simp [TodoRepo.get, hl], fun text b => ?_, by simp [TodoRepo.delete, hl]⟩
    obtain ⟨todo2, heq, -, -, -, -⟩ := @update_eq_ok r id text b t hl
    simp [heq, hl]

/-- Witness for C4: on the empty repository, `get 0` fails with `NotFound`. -/
theorem C4_notfound_iff_absent_witness :
    TodoRepo.default.get 0 = Except.error TodoRepoError.NotFound :=
  (C4_notfound_iff_absent TodoRepo.default 0).1.mpr rfl

/-- C5: `delete` on an absent id fails with `NotFound` (leaving the state
with the caller untouched); `delete` on a present id removes exactly that
entry (the id no longer resolves, every other id resolves as before, and the
size shrinks by one), decrements `num_all_items` by one in `u32` arithmetic,
and decrements exactly the counter matching the deleted task's prior
`is_completed` value, leaving the other counter unchanged. -/
theorem C5_delete_spec (r : TodoRepo) (id : Uuid) :
    (assocLookup id r.items = none → r.delete id = Except.error TodoRepoError.NotFound) ∧
    (∀ item, assocLookup id r.items = some item → (keysOf r.items).Nodup →
      ∃ r2, r.delete id = Except.ok r2 ∧
        assocLookup id r2.items = none ∧
        (∀ k, k ≠ id → assocLookup k r2.items = assocLookup k r.items) ∧
        r2.items.length + 1 = r.items.length ∧
        r2.num_all_items = u32sub r.num_all_items 1 ∧
        (item.is_completed = true →
          r2.num_completed_items = u32sub r.num_completed_items 1 ∧
          r2.num_active_items = r.num_active_items) ∧
        (item.is_completed = false →
          r2.num_active_items = u32sub r.num_active_items 1 ∧
          r2.num_completed_items = r.num_completed_items)) := by
  constructor
  · intro h
    simp [TodoRepo.delete, h]
  · intro item hl hnd
    obtain ⟨hle, -, -, -⟩ := counts_after_remove hnd hl
    have hdel : r.delete id = Except.ok
        { r with
          items := assocRemove id r.items
          num_completed_items :=
            if item.is_completed then u32sub r.num_completed_items 1
            else r.num_completed_items
          num_active_items :=
            if item.is_completed then r.num_active_items
            else u32sub r.num_active_items 1
          num_all_items := u32sub r.num_all_items 1 } := by
      simp [TodoRepo.delete, hl]
    refine ⟨_, hdel, assocLookup_assocRemove_self,
      fun k hk => assocLookup_assocRemove_ne hk, hle, rfl, ?_, ?_⟩
    · intro htrue
      simp [htrue]
    · intro hfalse
      simp [hfalse]

/-- Witness for C5: deleting the only (active) task of a one-task repository
succeeds and zeroes `num_all_items` and `num_active_items`; deleting an
absent id from the empty repository fails with `NotFound`. -/
theorem C5_delete_spec_witness :
    TodoRepo.delete TodoRepo.default 99 = Except.error TodoRepoError.NotFound ∧
    ∃ r2, TodoRepo.delete ⟨0, 1, 1, [(7, ⟨false, 2, "x", 7⟩)]⟩ 7 = Except.ok r2 ∧
      r2.num_all_items = 0 ∧ r2.num_active_items = 0 ∧ r2.items.length = 0 := by
  constructor
  · exact (C5_delete_spec TodoRepo.default 99).1 rfl
  · obtain ⟨r2, heq, -, -, hlen, hall, -, hfalse⟩ :=
      (C5_delete_spec ⟨0, 1, 1, [(7, ⟨false, 2, "x", 7⟩)]⟩ 7).2 ⟨false, 2, "x", 7⟩ rfl
        (by decide)
    obtain ⟨hact, -⟩ := hfalse rfl
    refine ⟨r2, heq, by rw [hall]; decide, by rw [hact]; decide, ?_⟩
    simp only [List.length_cons, List.length_nil] at hlen
    omega

/-- C6: `list(filter)` returns (a copy of) exactly the stored tasks matching
the filter — a permutation of the filtered values — sorted by `created_at`
descending, and returns the empty list (not an error) when nothing matches.
It is embedded as a pure function of the state, so it modifies nothing. -/
theorem C6_list_spec (r : TodoRepo) (f : TodoListFilter) :
    (r.list f).Perm ((r.items.map Prod.snd).filter (matchesFilter f)) ∧
    List.Pairwise createdDesc (r.list f) ∧
    ((r.items.map Prod.snd).filter (matchesFilter f) = [] → r.list f = []) := by
  refine ⟨List.perm_insertionSort _ _, List.sorted_insertionSort _ _, ?_⟩
  intro h
  rw [TodoRepo.list, h]
  rfl

/-- Witness for C6: on the empty repository, `list All` is the empty list. -/
theorem C6_list_spec_witness : TodoRepo.default.list TodoListFilter.All = [] :=
  (C6_list_spec TodoRepo.default TodoListFilter.All).2.2 rfl

/-- C7: `create(text)` (with the fresh id and timestamp supplied by the
environment) returns a task whose `text` is the given text — the empty
string included, no validation — and whose `is_completed` is false, stores
that task under the fresh id, grows `items` by one entry, increments
`num_all_items` and `num_active_items` by one in `u32` arithmetic, and
leaves `num_completed_items` unchanged. -/
theorem C7_create_spec (r : TodoRepo) (text : String) (id : Uuid) (now : Time)
    (hfresh : assocLookup id r.items = none) :
    (r.create text id now).1.text = text ∧
    (r.create text id now).1.is_completed = false ∧
    assocLookup id (r.create text id now).2.items = some (r.create text id now).1 ∧
    (r.create text id now).2.items.length = r.items.length + 1 ∧
    (r.create text id now).2.num_all_items = u32add r.num_all_items 1 ∧
    (r.create text id now).2.num_active_items = u32add r.num_active_items 1 ∧
    (r.create text id now).2.num_completed_items = r.num_completed_items := by
  have hins := assocInsert_of_fresh (v := Todo.new text id now) hfresh
  refine ⟨rfl, rfl, ?_, ?_, rfl, rfl, rfl⟩
  · show assocLookup id (assocInsert id (Todo.new text id now) r.items)
      = some (Todo.new text id now)
    rw [hins]
    exact assocLookup_append_fresh hfresh
  · show (assocInsert id (Todo.new text id now) r.items).length = r.items.length + 1
    rw [hins]
    simp

/-- Witness for C7: creating `"x"` (and also the empty string) in the empty
repository yields a task with that text, not completed, and counters 1/1/0. -/
theorem C7_create_spec_witness :
    (TodoRepo.default.create "x" 3 9).1.text = "x" ∧
    (TodoRepo.default.create "" 4 9).1.text = "" ∧
    (TodoRepo.default.create "x" 3 9).1.is_completed = false ∧
    (TodoRepo.default.create "x" 3 9).2.num_all_items = 1 ∧
    (TodoRepo.default.create "x" 3 9).2.num_active_items = 1 ∧
    (TodoRepo.default.create "x" 3 9).2.num_completed_items = 0 := by
  have h := C7_create_spec TodoRepo.default "x" 3 9 rfl
  have h0 := C7_create_spec TodoRepo.default "" 4 9 rfl
  refine ⟨h.1, h0.1, h.2.1, ?_, ?_, h.2.2.2.2.2.2⟩
  · rw [h.2.2.2.2.1]
    decide
  · rw [h.2.2.2.2.2.1]
    decide

/-- C8 (counterexample): the claim as stated is false for a repository state
whose `num_completed_items` counter is out of sync with the stored tasks:
with no stored task at all (so no completed task and zero tasks removed) but
`num_completed_items = 1`, `delete_completed` changes `num_all_items` from 1
to 0 instead of leaving the counters unchanged. -/
theorem C8_delete_completed_counterexample :
    ccount (⟨1, 0, 1, []⟩ : TodoRepo).items = 0 ∧
    (⟨1, 0, 1, []⟩ : TodoRepo).delete_completed.num_all_items
      ≠ (⟨1, 0, 1, []⟩ : TodoRepo).num_all_items := by
  constructor
  · decide
  · decide

/-- C8 (amended): for every repository state, `delete_completed` keeps
exactly the stored non-completed tasks; and provided `num_completed_items`
equals the number of stored completed tasks (the documented counter
invariant), it decrements `num_all_items` by the number of tasks removed (in
`u32` arithmetic), zeroes `num_completed_items`, and leaves
`num_active_items` unchanged; in particular, when no stored task is
completed (and `num_all_items` is a `u32` value) the whole state is
unchanged. -/
theorem C8_delete_completed_spec (r : TodoRepo)
    (hsync : r.num_completed_items = ccount r.items) :
    (∀ p ∈ r.delete_completed.items, p ∈ r.items ∧ p.2.is_completed = false) ∧
    (∀ p ∈ r.items, p.2.is_completed = false → p ∈ r.delete_completed.items) ∧
    r.delete_completed.items.length + ccount r.items = r.items.length ∧
    r.delete_completed.num_all_items
      = u32sub r.num_all_items (r.items.length - r.delete_completed.items.length) ∧
    r.delete_completed.num_completed_items = 0 ∧
    r.delete_completed.num_active_items = r.num_active_items ∧
    (ccount r.items = 0 → r.num_all_items < U32MOD → r.delete_completed = r) := by
  have hlen3 : r.delete_completed.items.length + ccount r.items = r.items.length := by
    show (r.items.filter fun p => !p.2.is_completed).length + ccount r.items = r.items.length
    rw [length_filterNot]
    exact acount_add_ccount r.items
  refine ⟨?_, ?_, hlen3, ?_, rfl, rfl, ?_⟩
  · intro p hp
    simp only [TodoRepo.delete_completed, List.mem_filter, Bool.not_eq_eq_eq_not,
      Bool.not_true] at hp
    exact hp
  · intro p hp hflag
    simp only [TodoRepo.delete_completed, List.mem_filter]
    exact ⟨hp, by simp [hflag]⟩
  · have hdiff : r.items.length - r.delete_completed.items.length = ccount r.items := by
      omega
    rw [hdiff]
    show u32sub r.num_all_items r.num_completed_items = u32sub r.num_all_items (ccount r.items)
    rw [hsync]
  · intro hc0 hlt
    have hnc : r.num_completed_items = 0 := by rw [hsync, hc0]
    have hfilter : r.items.filter (fun p => !p.2.is_completed) = r.items := by
      refine List.filter_eq_self.mpr (fun p hp => ?_)
      simp [ccount_eq_zero_iff.mp hc0 p hp]
    have hsub : u32sub r.num_all_items r.num_completed_items = r.num_all_items := by
      rw [hnc, u32sub_eq (Nat.zero_le _) hlt, Nat.sub_zero]
    obtain ⟨nc, na, nall, items⟩ := r
    simp only [TodoRepo.delete_completed, TodoRepo.mk.injEq] at *
    exact ⟨hnc.symm, trivial, hsub, hfilter⟩

/-- Witness for C8 (amended): a consistent two-task repository (one
completed, one active) ends with counters 0/1/1 after `delete_completed`,
and a consistent repository with no completed task is left fully
unchanged. -/
theorem C8_delete_completed_spec_witness :
    (⟨1, 1, 2, [(1, ⟨true, 1, "a", 1⟩), (2, ⟨false, 2, "b", 2⟩)]⟩ :
        TodoRepo).delete_completed.num_completed_items = 0 ∧
    (⟨1, 1, 2, [(1, ⟨true, 1, "a", 1⟩), (2, ⟨false, 2, "b", 2⟩)]⟩ :
        TodoRepo).delete_completed.num_active_items = 1 ∧
    (⟨1, 1, 2, [(1, ⟨true, 1, "a", 1⟩), (2, ⟨false, 2, "b", 2⟩)]⟩ :
        TodoRepo).delete_completed.num_all_items = 1 ∧
    (⟨0, 1, 1, [(2, ⟨false, 2, "b", 2⟩)]⟩ : TodoRepo).delete_completed
      = (⟨0, 1, 1, [(2, ⟨false, 2, "b", 2⟩)]⟩ : TodoRepo) := by
  have h := C8_delete_completed_spec
    ⟨1, 1, 2, [(1, ⟨true, 1, "a", 1⟩), (2, ⟨false, 2, "b", 2⟩)]⟩ (by decide)
  have h1 := C8_delete_completed_spec ⟨0, 1, 1, [(2, ⟨false, 2, "b", 2⟩)]⟩ (by decide)
  refine ⟨h.2.2.2.2.1, ?_, ?_, h1.2.2.2.2.2.2 (by decide) (by decide)⟩
  · rw [h.2.2.2.2.2.1]
  · have h4 := h.2.2.2.1
    rw [h4]
    decide

/-- C9: on any repository state, `toggle_completed(Check)` followed by
`toggle_completed(Uncheck)` yields a state with `num_active_items =
num_all_items`, `num_completed_items = 0`, and every stored task's
`is_completed` equal to `false`. -/
theorem C9_toggle_check_uncheck (r : TodoRepo) :
    ((r.toggle_completed TodoToggleAction.Check).toggle_completed
        TodoToggleAction.Uncheck).num_active_items
      = ((r.toggle_completed TodoToggleAction.Check).toggle_completed
        TodoToggleAction.Uncheck).num_all_items ∧
    ((r.toggle_completed TodoToggleAction.Check).toggle_completed
        TodoToggleAction.Uncheck).num_completed_items = 0 ∧
    ∀ p ∈ ((r.toggle_completed TodoToggleAction.Check).toggle_completed
        TodoToggleAction.Uncheck).items, p.2.is_completed = false := by
  refine ⟨rfl, rfl, ?_⟩
  intro p hp
  simp only [TodoRepo.toggle_completed, List.map_map, List.mem_map,
    Function.comp] at hp
  obtain ⟨q, -, rfl⟩ := hp
  rfl

/-- Witness for C9: a one-task repository whose task is completed ends, after
Check then Uncheck, with `num_completed_items = 0` and the stored task not
completed. -/
theorem C9_toggle_check_uncheck_witness :
    (((⟨0, 1, 1, [(4, ⟨true, 0, "a", 4⟩)]⟩ : TodoRepo).toggle_completed
        TodoToggleAction.Check).toggle_completed
        TodoToggleAction.Uncheck).num_completed_items = 0 ∧
    ((4, ⟨false, 0, "a", 4⟩) : Uuid × Todo).2.is_completed = false := by
  have h := C9_toggle_check_uncheck ⟨0, 1, 1, [(4, ⟨true, 0, "a", 4⟩)]⟩
  exact ⟨h.2.1, h.2.2 (4, ⟨false, 0, "a", 4⟩) (by decide)⟩

/-- C10: either `toggle_completed` call changes only the stored
`is_completed` flags and the active/completed counters: the keys of `items`,
every task's `id`, `text`, and `created_at`, and `num_all_items` are
unchanged. -/
theorem C10_toggle_frame (r : TodoRepo) (a : TodoToggleAction) :
    keysOf (r.toggle_completed a).items = keysOf r.items ∧
    (r.toggle_completed a).num_all_items = r.num_all_items ∧
    (r.toggle_completed a).items.map (fun p => (p.1, p.2.id, p.2.text, p.2.created_at))
      = r.items.map (fun p => (p.1, p.2.id, p.2.text, p.2.created_at)) := by
  cases a with
  | Uncheck =>
    refine ⟨keysOf_setFlag false r.items, rfl, ?_⟩
    simp [TodoRepo.toggle_completed, List.map_map, Function.comp]
  | Check =>
    refine ⟨keysOf_setFlag true r.items, rfl, ?_⟩
    simp [TodoRepo.toggle_completed, List.map_map, Function.comp]
